import Mathlib

/-!
Shallow embedding of the core pipeline of `appreqonline.py` (the enrollment
request cross-referencing tool): column normalization, schema validation,
key sanitization, inner join on the `nusp` key, derived metrics and CSV
export.  Tables are modelled as a list of column names plus a list of rows;
cell values are integers, strings or a missing marker (pandas `NaN`).
-/

namespace AppReq

/-- A cell value of a table: a number, a string, or the missing marker
(pandas `NaN` / `None`). -/
inductive Value where
  | num (n : Int)
  | str (s : String)
  | null
deriving DecidableEq

/-- A dataframe: column labels plus rows of cells (row order preserved,
as in pandas). -/
structure DF where
  cols : List String
  rows : List (List Value)
deriving DecidableEq

/-- `leadsWith pat l` is true when `pat` occurs at the start of `l`. -/
def leadsWith : List Char → List Char → Bool
  | [], _ => true
  | _ :: _, [] => false
  | a :: as, b :: bs => a == b && leadsWith as bs

/-- `hasSub text pat` is true when `pat` occurs as a contiguous run of
`text` (Python's `pat in text`). -/
def hasSub : List Char → List Char → Bool
  | [], pat => pat.isEmpty
  | c :: cs, pat => leadsWith pat (c :: cs) || hasSub cs pat

/-- Python `pat in s` on strings (substring containment). -/
def strContains (s pat : String) : Bool := hasSub s.data pat.data

/-- Python `sep.join(parts)`. -/
def joinSep (sep : String) : List String → String
  | [] => ""
  | [x] => x
  | x :: y :: xs => x ++ sep ++ joinSep sep (y :: xs)

/-- Python `s.replace(pat, repl)` over characters, scanning left to right;
`fuel` bounds the scan (any `fuel ≥` the text length is exact). -/
def replaceFuel (pat repl : List Char) : Nat → List Char → List Char
  | 0, l => l
  | _ + 1, [] => []
  | fuel + 1, c :: cs =>
    if !pat.isEmpty && leadsWith pat (c :: cs) then
      repl ++ replaceFuel pat repl fuel (cs.drop (pat.length - 1))
    else
      c :: replaceFuel pat repl fuel cs

/-- Python `s.replace(pat, repl)`. -/
def pyReplace (s pat repl : String) : String :=
  ⟨replaceFuel pat.data repl.data s.data.length s.data⟩

/-- Python `s.lower()` (ASCII case folding, the range the matched
keywords use). -/
def pyLower (s : String) : String := ⟨s.data.map Char.toLower⟩

/-- The whitespace characters stripped by Python `s.strip()`. -/
def isSpaceChar (c : Char) : Bool :=
  c == ' ' || c == '\t' || c == '\n' || c == '\r'

/-- Python `s.strip()`: drop leading and trailing whitespace. -/
def pyStrip (s : String) : String :=
  ⟨((s.data.dropWhile isSpaceChar).reverse.dropWhile isSpaceChar).reverse⟩

/-- Python `col.lower().strip()` used when matching column names. -/
def normName (s : String) : String := pyStrip (pyLower s)

/-- Index of a column label in the header (first occurrence). -/
def DF.colIdx (df : DF) (c : String) : Option Nat :=
  df.cols.findIdx? (fun x => x = c)

/-- Read the cell of a row at an optional column index (missing column or
short row reads as the missing marker). -/
def getCell (r : List Value) : Option Nat → Value
  | some j => r.getD j .null
  | none => .null

/-- Replace the cell of a row at an optional column index. -/
def setCell (r : List Value) (i : Option Nat) (v : Value) : List Value :=
  match i with
  | some j => r.set j v
  | none => r

/-- The column of cells under label `c`. -/
def DF.col (df : DF) (c : String) : List Value :=
  df.rows.map (fun r => getCell r (df.colIdx c))

/-! ## Column Normalizer (`find_and_rename_nusp_column`) -/

/-- The fixed keyword list of the `any(keyword in normalized_col ...)` test
in `find_and_rename_nusp_column`. -/
def nuspKeywords : List String := ["nusp", "numero usp", "número usp", "n° usp"]

/-- The synonym list passed for the historical (consolidado) file. -/
def consolidadoNames : List String :=
  ["nusp", "numero usp", "número usp", "n° usp", "n usp"]

/-- The synonym list passed for the current (requerimentos) file. -/
def requerimentosNames : List String :=
  ["nusp", "número usp", "numero usp", "n° usp", "n usp"]

/-- The per-column test of `find_and_rename_nusp_column`: the normalized
label equals a normalized synonym, or contains one of the fixed keywords. -/
def isNuspMatch (possible_names : List String) (col : String) : Bool :=
  let nc := normName col
  (possible_names.map normName).contains nc
    || nuspKeywords.any (fun k => strContains nc k)

/-- `find_and_rename_nusp_column`: rename the first matching column to
`"nusp"` (via a name-keyed rename, as `df.rename` does), or fail with a
message listing the available columns. -/
def find_and_rename_nusp_column (df : DF) (possible_names : List String) :
    Except String DF :=
  match df.cols.find? (isNuspMatch possible_names) with
  | some c => .ok { df with cols := df.cols.map (fun x => if x = c then "nusp" else x) }
  | none => .error ("Coluna de Número USP não encontrada. Colunas disponíveis: "
      ++ joinSep ", " df.cols)

/-! ## Schema Validator (`validate_dataframes`) -/

def required_cols_consolidado : List String :=
  ["nusp", "disciplina_historico", "Ano_historico", "Semestre_historico",
   "problema_historico", "parecer_historico"]

def required_cols_requerimentos : List String := ["nusp", "Nome completo"]

/-- `validate_dataframes`: collect the missing required columns of both
tables and raise one combined error (`ValueError` in the source) when any
is missing. -/
def validate_dataframes (dfc dfr : DF) : Except String Unit :=
  let missingC := required_cols_consolidado.filter (fun c => !dfc.cols.contains c)
  let missingR := required_cols_requerimentos.filter (fun c => !dfr.cols.contains c)
  let errors : List String :=
    (if !missingC.isEmpty then
      ["Arquivo consolidado: colunas faltando - "
        ++ joinSep ", " (missingC.map (fun c => pyReplace c "_historico" ""))]
     else [])
    ++ (if !missingR.isEmpty then
      ["Arquivo requerimentos: colunas faltando - " ++ joinSep ", " missingR]
     else [])
  if !errors.isEmpty then .error (joinSep "\n" errors) else .ok ()

/-! ## Key Sanitizer (`pd.to_numeric(..., errors='coerce')` + `dropna` +
`astype(int)`) -/

/-- Numeric value of a run of decimal digits. -/
def digitsToNat (cs : List Char) : Nat :=
  cs.foldl (fun n c => n * 10 + (c.toNat - 48)) 0

/-- Numeric coercion of a string, as `pd.to_numeric(..., errors='coerce')`
parses it (whitespace-trimmed optional sign, decimal digits, optional
fractional part; the result is truncated toward zero as `astype(int)`
does). Scientific notation is not modelled. -/
def parseIntStr (s : String) : Option Int :=
  let cs := (pyStrip s).data
  let signBody : Int × List Char :=
    match cs with
    | '-' :: rest => (-1, rest)
    | '+' :: rest => (1, rest)
    | _ => (1, cs)
  let sign := signBody.1
  let body := signBody.2
  let intDigits := body.takeWhile (fun c => c != '.')
  let rest := body.dropWhile (fun c => c != '.')
  match rest with
  | [] =>
    if !intDigits.isEmpty && intDigits.all Char.isDigit then
      some (sign * (digitsToNat intDigits : Int))
    else none
  | _ :: frac =>
    if intDigits.all Char.isDigit && frac.all Char.isDigit
        && !(intDigits.isEmpty && frac.isEmpty) then
      some (sign * (digitsToNat intDigits : Int))
    else none

/-- Coercion of one key cell: numbers pass through, strings are parsed,
anything else becomes missing. -/
def coerceKey : Value → Option Int
  | .num n => some n
  | .str s => parseIntStr s
  | .null => none

/-- The body of the sanitization loop of `run_app` for one table:
coerce the `nusp` column, count the resulting missing values, drop those
rows and cast the survivors to integer.  Returns the cleaned table and the
dropped-row count (`nulos_antes`). -/
def sanitize_nusp (df : DF) : DF × Nat :=
  let i := df.colIdx "nusp"
  let coerced := df.rows.map (fun r => (r, coerceKey (getCell r i)))
  let nulos := (coerced.filter (fun p => p.2.isNone)).length
  let kept := coerced.filterMap (fun p => p.2.map (fun k => setCell p.1 i (.num k)))
  ({ df with rows := kept }, nulos)

/-- The sanitization loop of `run_app` runs over the two tables in order:
consolidado first, requerimentos second, each independently. -/
def sanitizeBoth (dfc dfr : DF) : (DF × Nat) × (DF × Nat) :=
  (sanitize_nusp dfc, sanitize_nusp dfr)

/-! ## History Joiner -/

/-- The suffix rename applied to the consolidado table before the merge. -/
def rename_historico (df : DF) : DF :=
  { df with cols := df.cols.map (fun c =>
      if c ∈ ["disciplina", "Ano", "Semestre", "problema", "parecer"]
      then c ++ "_historico" else c) }

/-- The `nusp` cell of a row of `df`. -/
def keyCell (df : DF) (r : List Value) : Value := getCell r (df.colIdx "nusp")

/-- The matched (current row, historical row) pairs of the inner merge:
for each current row in order, every historical row sharing its key. -/
def mergePairs (dfr dfc : DF) : List (List Value × List Value) :=
  dfr.rows.flatMap (fun r =>
    (dfc.rows.filter (fun h => keyCell dfc h = keyCell dfr r)).map (fun h => (r, h)))

/-- `df_requerimentos.merge(df_consolidado, on="nusp", how="inner")`:
columns of the left table followed by the non-key columns of the right,
one output row per matched pair. -/
def merge_nusp (dfr dfc : DF) : DF :=
  let rightCols := dfc.cols.filter (fun c => c ≠ "nusp")
  { cols := dfr.cols ++ rightCols,
    rows := (mergePairs dfr dfc).map (fun p =>
      p.1 ++ rightCols.map (fun c => getCell p.2 (dfc.colIdx c))) }

/-- The processing pipeline of `run_app` in source order: normalize both
headers, validate, sanitize both key columns, suffix-rename the historical
columns, inner-join.  Note the source calls `validate_dataframes` BEFORE
the `_historico` suffix rename. -/
def process_uploaded (dfc dfr : DF) : Except String DF := do
  let dfc ← find_and_rename_nusp_column dfc consolidadoNames
  let dfr ← find_and_rename_nusp_column dfr requerimentosNames
  validate_dataframes dfc dfr
  let dfc := (sanitize_nusp dfc).1
  let dfr := (sanitize_nusp dfr).1
  let dfc := rename_historico dfc
  pure (merge_nusp dfr dfc)

/-! ## Metrics Calculator (`calculate_additional_metrics`) -/

/-- Pandas `astype(str)` rendering of a cell. -/
def valueToStr : Value → String
  | .num n => toString n
  | .str s => s
  | .null => "nan"

/-- `.str.lower()` of a cell: lowercases strings, other values become
missing (and `.str.contains(..., na=False)` then reads them as `False`). -/
def parecerLower : Value → Option String
  | .str s => some (pyLower s)
  | _ => none

/-- `pareceres.str.contains('aprovado', na=False)` on one cell. -/
def isAprovado (v : Value) : Bool :=
  match parecerLower v with
  | some s => strContains s "aprovado"
  | none => false

/-- `pareceres.str.contains('negado|indeferido', na=False)` on one cell. -/
def isNegado (v : Value) : Bool :=
  match parecerLower v with
  | some s => strContains s "negado" || strContains s "indeferido"
  | none => false

/-- `aprovados` of `calculate_additional_metrics`. -/
def countAprovados (df : DF) : Nat :=
  ((df.col "parecer_historico").filter isAprovado).length

/-- `negados` of `calculate_additional_metrics`. -/
def countNegados (df : DF) : Nat :=
  ((df.col "parecer_historico").filter isNegado).length

/-- Distinct elements of a list, first occurrences first. -/
def firstOccs {α : Type} [DecidableEq α] (seen : List α) : List α → List α
  | [] => []
  | a :: as => if a ∈ seen then firstOccs seen as else a :: firstOccs (a :: seen) as

/-- Occurrence count of `a` in `l`. -/
def countOcc {α : Type} [DecidableEq α] (l : List α) (a : α) : Nat :=
  (l.filter (fun x => decide (x = a))).length

/-- Pandas `Series.value_counts()` on generic cells: missing values dropped,
counts per distinct value, ranked by count descending (stable). -/
def valueCounts (l : List Value) : List (Value × Nat) :=
  let nonNull := l.filter (fun v => decide (v ≠ Value.null))
  List.insertionSort (fun p q : Value × Nat => q.2 ≤ p.2)
    ((firstOccs [] nonNull).map (fun v => (v, countOcc nonNull v)))

/-- Pandas `Series.value_counts()` on the string period labels. -/
def strValueCounts (l : List String) : List (String × Nat) :=
  List.insertionSort (fun p q : String × Nat => q.2 ≤ p.2)
    ((firstOccs [] l).map (fun s => (s, countOcc l s)))

/-- Lexicographic (code-point) order on character lists, the order Python
uses to compare strings. -/
def lexLe : List Char → List Char → Bool
  | [], _ => true
  | _ :: _, [] => false
  | a :: as, b :: bs =>
    if a.toNat < b.toNat then true
    else if b.toNat < a.toNat then false
    else lexLe as bs

/-- Lexicographic (code-point) order on strings. -/
def strLe (s t : String) : Bool := lexLe s.data t.data

/-- Pandas `.sort_index()`: sort by the (string) index, lexicographically
ascending. -/
def sortIndex (l : List (String × Nat)) : List (String × Nat) :=
  List.insertionSort (fun p q : String × Nat => strLe p.1 q.1 = true) l

/-- `nunique()` of the `nusp` column (missing values excluded). -/
def nuniqueNusp (df : DF) : Nat :=
  (firstOccs [] ((df.col "nusp").filter (fun v => decide (v ≠ Value.null)))).length

/-- The period label of each row:
`df['Ano_historico'].astype(str) + '/' + df['Semestre_historico'].astype(str)`. -/
def periodoLabels (df : DF) : List String :=
  List.zipWith (fun a s => valueToStr a ++ "/" ++ valueToStr s)
    (df.col "Ano_historico") (df.col "Semestre_historico")

/-- `df[c] = vals`: overwrite the column when the label exists, otherwise
append a new column of that label. -/
def assignCol (df : DF) (c : String) (vals : List Value) : DF :=
  if c ∈ df.cols then
    { df with rows := List.zipWith (fun r v => setCell r (df.colIdx c) v) df.rows vals }
  else
    { cols := df.cols ++ [c], rows := List.zipWith (fun r v => r ++ [v]) df.rows vals }

/-- The metrics dictionary built by `calculate_additional_metrics`; a `none`
field is a key absent from the dictionary. -/
structure Metrics where
  taxa_aprovacao : Option ℚ := none
  media_pedidos_por_aluno : Option ℚ := none
  top_disciplinas : Option (List (Value × Nat)) := none
  distribuicao_temporal : Option (List (String × Nat)) := none
deriving DecidableEq

/-- `metrics.get('taxa_aprovacao', 0)` as read back in `run_app`. -/
def Metrics.getTaxa (m : Metrics) : ℚ := m.taxa_aprovacao.getD 0

/-- `calculate_additional_metrics`: the metrics dictionary plus the table
as it stands afterwards (the source assigns the `periodo` column into the
caller's table in place). -/
def calculate_additional_metrics (df : DF) : Metrics × DF :=
  if df.rows.isEmpty then ({}, df)
  else
    let aprovados := countAprovados df
    let negados := countNegados df
    let total_com_parecer := aprovados + negados
    let taxa : ℚ :=
      if 0 < total_com_parecer then (aprovados : ℚ) / (total_com_parecer : ℚ) * 100 else 0
    let media : ℚ := (df.rows.length : ℚ) / (nuniqueNusp df : ℚ)
    let top := (valueCounts (df.col "disciplina_historico")).take 5
    if "Ano_historico" ∈ df.cols ∧ "Semestre_historico" ∈ df.cols then
      let labels := periodoLabels df
      let df' := assignCol df "periodo" (labels.map Value.str)
      ({ taxa_aprovacao := some taxa, media_pedidos_por_aluno := some media,
         top_disciplinas := some top,
         distribuicao_temporal := some (sortIndex (strValueCounts labels)) }, df')
    else
      ({ taxa_aprovacao := some taxa, media_pedidos_por_aluno := some media,
         top_disciplinas := some top }, df)

/-! ## Report Exporter (`df.to_csv(index=False)`) -/

/-- A CSV field needs quoting when it holds a delimiter, quote or line
break (the csv writer's minimal quoting). -/
def needsQuoting (s : String) : Bool :=
  s.data.any (fun c => c == ',' || c == '"' || c == '\n' || c == '\r')

/-- Double every quote character of a quoted field's body. -/
def dupQuotes : List Char → List Char
  | [] => []
  | c :: cs => if c = '"' then '"' :: '"' :: dupQuotes cs else c :: dupQuotes cs

/-- Render one CSV field, quoting only when needed. -/
def renderField (s : String) : String :=
  if needsQuoting s then "\"" ++ String.mk (dupQuotes s.data) ++ "\"" else s

/-- One CSV line: the comma-join of the rendered fields. -/
def csvLine (fields : List String) : String := joinSep "," (fields.map renderField)

/-- `df.to_csv(index=False)` as its list of lines: a header line from the
column labels (no row-index column), then one line per row with cells
rendered as text. -/
def to_csv (df : DF) : List String :=
  csvLine df.cols :: df.rows.map (fun r => csvLine (r.map valueToStr))

/-- Occurrences of a character in a string. -/
def countChar (c : Char) (s : String) : Nat :=
  (s.data.filter (fun x => decide (x = c))).length

/-! ## Concrete tables used to ground the theorems -/

/-- A historical table exactly in the documented input format
(`nusp`, `disciplina`, `Ano`, `Semestre`, `problema`, `parecer`). -/
def dfc_doc : DF :=
  ⟨["nusp", "disciplina", "Ano", "Semestre", "problema", "parecer"],
   [[.num 123, .str "MAC0110", .num 2023, .num 1, .str "QR", .str "Aprovado"]]⟩

/-- A current table exactly in the documented input format
(`nusp`, `Nome completo`). -/
def dfr_doc : DF := ⟨["nusp", "Nome completo"], [[.num 123, .str "Alice Silva"]]⟩

/-- A sanitized, suffix-renamed historical table with three approved and
one rejected decision for student 1. -/
def dfc75 : DF :=
  ⟨["nusp", "disciplina_historico", "Ano_historico", "Semestre_historico",
    "problema_historico", "parecer_historico"],
   [[.num 1, .str "MAC0110", .num 2019, .num 2, .str "QR", .str "Aprovado"],
    [.num 1, .str "MAC0121", .num 2019, .num 10, .str "CH", .str "Aprovado"],
    [.num 1, .str "MAC0110", .num 2020, .num 1, .str "QR", .str "APROVADO"],
    [.num 1, .str "MAC0239", .num 2020, .num 2, .str "CH", .str "Negado"]]⟩

/-- A sanitized current table with the single student 1. -/
def dfr75 : DF := ⟨["nusp", "Nome completo"], [[.num 1, .str "Alice"]]⟩

/-- The joined table of `dfr75` and `dfc75`: four historical rows of one
student, 3 approved / 1 rejected. -/
def example75 : DF := merge_nusp dfr75 dfc75

/-- Current table with keys {1, 1, 2}. -/
def dfr123 : DF :=
  ⟨["nusp", "Nome completo"], [[.num 1, .str "A"], [.num 1, .str "A"], [.num 2, .str "B"]]⟩

/-- Historical table with keys {1, 2, 2}. -/
def dfc122 : DF :=
  ⟨["nusp", "parecer_historico"], [[.num 1, .str "x"], [.num 2, .str "y"], [.num 2, .str "z"]]⟩

/-- A historical table whose single decision text holds both the positive
and a negative keyword. -/
def dfcDupla : DF :=
  ⟨["nusp", "disciplina_historico", "Ano_historico", "Semestre_historico",
    "problema_historico", "parecer_historico"],
   [[.num 5, .str "MAC0110", .num 2021, .num 1, .str "QR",
     .str "aprovado parcialmente, negado o resto"]]⟩

/-- The joined table holding the double-keyword decision text. -/
def exampleDupla : DF :=
  merge_nusp ⟨["nusp", "Nome completo"], [[.num 5, .str "Bob"]]⟩ dfcDupla

/-- An empty joined table (no current student matched the history). -/
def emptyJoined : DF :=
  ⟨["nusp", "Nome completo", "disciplina_historico", "Ano_historico",
    "Semestre_historico", "problema_historico", "parecer_historico"], []⟩

/-- A 10-row, 6-column joined table for the CSV export property. -/
def df10x6 : DF :=
  ⟨["nusp", "Nome completo", "disciplina_historico", "Ano_historico",
    "Semestre_historico", "parecer_historico"],
   List.replicate 10
     [.num 11, .str "Alice", .str "MAC0110", .num 2023, .num 1, .str "Aprovado"]⟩

/-- A current table whose identifier column carries the literal label
`Número USP`. -/
def dfAccent : DF := ⟨["Nome", "Número USP", "obs"], [[.str "A", .num 7, .null]]⟩

/-- A table with no identifier-like column at all. -/
def dfNoKey : DF := ⟨["Nome", "curso"], [[.str "A", .str "BCC"]]⟩

end AppReq

namespace AppReq

/-! ## Theorems -/

/-- C1: the claim says the Schema Validation step succeeds on a historical
table in the documented plain-named format plus a current table with key
and full name.  It does not: `run_app` calls `validate_dataframes` (which
requires the `_historico`-suffixed columns) BEFORE the suffix rename, so
the documented input format is always rejected with a missing-columns
error.  This theorem evaluates the pipeline at that input. -/
theorem validation_rejects_expected_format :
    process_uploaded dfc_doc dfr_doc =
      .error "Arquivo consolidado: colunas faltando - disciplina, Ano, Semestre, problema, parecer" :=
  rfl

/-- C5: the Metrics Calculator on an empty joined table raises no error and
returns the empty metrics dictionary: the approval rate reads back as 0 and
the top-course and temporal-distribution entries are absent. -/
theorem metrics_empty_spec : ∀ df : DF, df.rows = [] →
    calculate_additional_metrics df = ({}, df)
    ∧ (calculate_additional_metrics df).1.getTaxa = 0
    ∧ (calculate_additional_metrics df).1.top_disciplinas = none
    ∧ (calculate_additional_metrics df).1.distribuicao_temporal = none := by
  intro df h
  have hm : calculate_additional_metrics df = ({}, df) := by
    simp [calculate_additional_metrics, h]
  refine ⟨hm, ?_, ?_, ?_⟩ <;> simp [hm, Metrics.getTaxa]

/-- Witness for C5 at a concrete empty joined table. -/
theorem metrics_empty_spec_witness :
    calculate_additional_metrics emptyJoined = ({}, emptyJoined)
    ∧ (calculate_additional_metrics emptyJoined).1.getTaxa = 0
    ∧ (calculate_additional_metrics emptyJoined).1.top_disciplinas = none
    ∧ (calculate_additional_metrics emptyJoined).1.distribuicao_temporal = none :=
  metrics_empty_spec emptyJoined rfl

/-- The kept rows of the sanitizer are exactly the rows whose key cell
coerces, in order, with the key cell overwritten by the parsed integer. -/
theorem sanitize_kept (i : Option Nat) (L : List (List Value)) :
    ((L.map (fun r => (r, coerceKey (getCell r i)))).filterMap
        (fun p => p.2.map (fun k => setCell p.1 i (.num k))))
      = (L.filter (fun r => (coerceKey (getCell r i)).isSome)).map
          (fun r => setCell r i (.num ((coerceKey (getCell r i)).getD 0))) := by
  induction L with
  | nil => rfl
  | cons r L ih =>
    simp only [List.map_cons, List.filterMap_cons, List.filter_cons]
    cases hc : coerceKey (getCell r i) <;> simp [hc, ih]

/-- The dropped-row count of the sanitizer is the number of rows whose key
cell fails to coerce. -/
theorem sanitize_dropped (i : Option Nat) (L : List (List Value)) :
    ((L.map (fun r => (r, coerceKey (getCell r i)))).filter (fun p => p.2.isNone)).length
      = (L.filter (fun r => (coerceKey (getCell r i)).isNone)).length := by
  rw [List.filter_map]
  simp [Function.comp_def]

/-- C4: the Key Sanitizer drops exactly the rows whose identifier cell
cannot be coerced to a number, counts them, keeps every other row in order
(only its key cell is replaced by the parsed integer), so kept + dropped =
input row count; it is a total function (no exception on parse failures)
and the loop of `run_app` applies it to each table independently. -/
theorem sanitizer_spec :
    (∀ df : DF,
      (sanitize_nusp df).2
          = (df.rows.filter (fun r => (coerceKey (getCell r (df.colIdx "nusp"))).isNone)).length
      ∧ (sanitize_nusp df).1.rows
          = (df.rows.filter (fun r => (coerceKey (getCell r (df.colIdx "nusp"))).isSome)).map
              (fun r => setCell r (df.colIdx "nusp")
                (.num ((coerceKey (getCell r (df.colIdx "nusp"))).getD 0)))
      ∧ (sanitize_nusp df).1.cols = df.cols
      ∧ (sanitize_nusp df).1.rows.length + (sanitize_nusp df).2 = df.rows.length)
    ∧ (∀ dfc dfr : DF, sanitizeBoth dfc dfr = (sanitize_nusp dfc, sanitize_nusp dfr)) := by
  refine ⟨?_, fun _ _ => rfl⟩
  intro df
  refine ⟨sanitize_dropped _ _, sanitize_kept _ _, rfl, ?_⟩
  show ((df.rows.map _).filterMap _).length + ((df.rows.map _).filter _).length = _
  rw [sanitize_kept, sanitize_dropped, List.length_map]
  have hsplit := List.length_eq_length_filter_add (l := df.rows)
    (fun r => (coerceKey (getCell r (df.colIdx "nusp"))).isSome)
  have hneg : df.rows.filter (fun r => !(coerceKey (getCell r (df.colIdx "nusp"))).isSome)
      = df.rows.filter (fun r => (coerceKey (getCell r (df.colIdx "nusp"))).isNone) := by
    apply List.filter_congr
    intro r _
    cases coerceKey (getCell r (df.colIdx "nusp")) <;> rfl
  rw [hneg] at hsplit
  omega

/-- One current row's contribution to the join, restricted to a key `k`:
all matching historical rows when the current row carries key `k`, none
otherwise. -/
theorem flatMap_filter_card (R H : List (List Value)) (kr kh : List Value → Value) (k : Value) :
    ((R.flatMap (fun r => (H.filter (fun h => decide (kh h = kr r))).map
        (fun h => ((r : List Value), h)))).filter
      (fun p => decide (kr p.1 = k))).length
    = (R.filter (fun r => decide (kr r = k))).length
        * (H.filter (fun h => decide (kh h = k))).length := by
  induction R with
  | nil => simp
  | cons r R ih =>
    have hseg : (((H.filter (fun h => decide (kh h = kr r))).map
          (fun h => ((r : List Value), h))).filter
        (fun p => decide (kr p.1 = k))).length
        = if kr r = k then (H.filter (fun h => decide (kh h = k))).length else 0 := by
      rw [List.filter_map]
      by_cases hk : kr r = k
      · simp [Function.comp_def, hk]
      · simp [Function.comp_def, hk]
    simp only [List.flatMap_cons, List.filter_append, List.length_append, hseg, ih,
      List.filter_cons]
    by_cases hk : kr r = k
    · simp only [hk, decide_True, if_true, List.length_cons]
      ring
    · simp [hk]

/-- C2: the History Joiner emits one output row per matched (current row,
historical row) pair: per key the output cardinality is N×M (so zero
historical matches yield zero rows), and on current keys {1,1,2} against
historical keys {1,2,2} the join has exactly 4 rows. -/
theorem joiner_cardinality :
    (∀ dfr dfc : DF, (merge_nusp dfr dfc).rows.length = (mergePairs dfr dfc).length)
    ∧ (∀ dfr dfc : DF, ∀ k : Value,
        ((mergePairs dfr dfc).filter (fun p => decide (keyCell dfr p.1 = k))).length
          = (dfr.rows.filter (fun r => decide (keyCell dfr r = k))).length
            * (dfc.rows.filter (fun h => decide (keyCell dfc h = k))).length)
    ∧ (merge_nusp dfr123 dfc122).rows.length = 4 := by
  refine ⟨?_, ?_, by decide⟩
  · intro dfr dfc
    simp [merge_nusp]
  · intro dfr dfc k
    exact flatMap_filter_card dfr.rows dfc.rows (keyCell dfr) (keyCell dfc) k

/-- C3: on every non-empty joined table the approval rate is the count of
decisions holding the positive keyword over that count plus the count
holding a negative keyword, times 100, and 0 when that denominator is 0;
on the concrete joined table with 3 approved and 1 rejected decisions it
is exactly 75. -/
theorem taxa_aprovacao_spec :
    (∀ df : DF, df.rows ≠ [] →
      (calculate_additional_metrics df).1.taxa_aprovacao =
        some (if 0 < countAprovados df + countNegados df
              then (countAprovados df : ℚ)
                  / ((countAprovados df + countNegados df : Nat) : ℚ) * 100
              else 0))
    ∧ (calculate_additional_metrics example75).1.taxa_aprovacao = some 75 := by
  constructor
  · intro df h
    simp only [calculate_additional_metrics]
    rw [if_neg (by simp [h])]
    by_cases hc : "Ano_historico" ∈ df.cols ∧ "Semestre_historico" ∈ df.cols
    · rw [if_pos hc]
    · rw [if_neg hc]
  · with_unfolding_all rfl

/-- Witness for C3 at the concrete 3-approved / 1-rejected joined table. -/
theorem taxa_aprovacao_spec_witness :
    (calculate_additional_metrics example75).1.taxa_aprovacao =
      some (if 0 < countAprovados example75 + countNegados example75
            then (countAprovados example75 : ℚ)
                / ((countAprovados example75 + countNegados example75 : Nat) : ℚ) * 100
            else 0) :=
  taxa_aprovacao_spec.1 example75 (by decide)

/-- C7: whenever some column of the table matches a synonym (normalized by
lowercasing and stripping) or contains a fixed keyword, the Column
Normalizer renames the first such column to `nusp`, leaves every other
label and all rows intact (no column dropped); when no column matches it
fails with the message enumerating the available column names.  The column
literally labelled `Número USP` is recognized. -/
theorem normalizer_spec :
    (∀ (df : DF) (names : List String), df.cols.any (isNuspMatch names) = true →
      ∃ c, df.cols.find? (isNuspMatch names) = some c
        ∧ find_and_rename_nusp_column df names =
            .ok ⟨df.cols.map (fun x => if x = c then "nusp" else x), df.rows⟩)
    ∧ (∀ (df : DF) (names : List String), df.cols.all (fun c => !isNuspMatch names c) = true →
      find_and_rename_nusp_column df names =
        .error ("Coluna de Número USP não encontrada. Colunas disponíveis: "
          ++ joinSep ", " df.cols))
    ∧ (∀ (df df' : DF) (names : List String),
        find_and_rename_nusp_column df names = .ok df' →
        df'.cols.length = df.cols.length ∧ df'.rows = df.rows)
    ∧ find_and_rename_nusp_column dfAccent requerimentosNames
        = .ok ⟨["Nome", "nusp", "obs"], [[.str "A", .num 7, .null]]⟩ := by
  refine ⟨?_, ?_, ?_, rfl⟩
  · intro df names h
    have hs : (df.cols.find? (isNuspMatch names)).isSome := by
      rw [List.find?_isSome]
      simpa using h
    obtain ⟨c, hc⟩ := Option.isSome_iff_exists.mp hs
    exact ⟨c, hc, by simp [find_and_rename_nusp_column, hc]⟩
  · intro df names h
    have hn : df.cols.find? (isNuspMatch names) = none := by
      rw [List.find?_eq_none]
      intro x hx
      simpa using List.all_eq_true.mp h x hx
    simp [find_and_rename_nusp_column, hn]
  · intro df df' names h
    cases hf : df.cols.find? (isNuspMatch names) <;>
      simp [find_and_rename_nusp_column, hf] at h
    obtain rfl := h.symm
    simp

/-- Witness for C7: the match branch at the `Número USP` table, the
no-match branch at a keyless table, and the no-drop consequence. -/
theorem normalizer_spec_witness :
    (∃ c, dfAccent.cols.find? (isNuspMatch requerimentosNames) = some c
      ∧ find_and_rename_nusp_column dfAccent requerimentosNames =
          .ok ⟨dfAccent.cols.map (fun x => if x = c then "nusp" else x), dfAccent.rows⟩)
    ∧ find_and_rename_nusp_column dfNoKey requerimentosNames =
        .error ("Coluna de Número USP não encontrada. Colunas disponíveis: "
          ++ joinSep ", " dfNoKey.cols)
    ∧ ((⟨["Nome", "nusp", "obs"], [[.str "A", .num 7, .null]]⟩ : DF).cols.length
          = dfAccent.cols.length
        ∧ (⟨["Nome", "nusp", "obs"], [[.str "A", .num 7, .null]]⟩ : DF).rows = dfAccent.rows) :=
  ⟨normalizer_spec.1 dfAccent requerimentosNames (by decide),
   normalizer_spec.2.1 dfNoKey requerimentosNames (by decide),
   normalizer_spec.2.2.1 dfAccent _ requerimentosNames rfl⟩

/-- Character counts add over string append. -/
theorem countChar_append (c : Char) (a b : String) :
    countChar c (a ++ b) = countChar c a + countChar c b := by
  simp [countChar, String.data_append]

/-- A field free of special characters carries no comma. -/
theorem countComma_of_not_needsQuoting (s : String) (h : needsQuoting s = false) :
    countChar ',' s = 0 := by
  rw [needsQuoting, List.any_eq_false] at h
  simp only [countChar, List.length_eq_zero, List.filter_eq_nil_iff]
  intro a ha
  have := h a ha
  simp only [Bool.or_eq_true, beq_iff_eq, not_or] at this
  simp [this.1.1]

/-- Unquoted fields render as themselves. -/
theorem renderField_id (s : String) (h : needsQuoting s = false) : renderField s = s := by
  simp [renderField, h]

/-- The comma-join of `n ≥ 1` comma-free parts holds exactly `n - 1`
commas. -/
theorem joinSep_comma_count : ∀ parts : List String, parts ≠ [] →
    (∀ p ∈ parts, countChar ',' p = 0) →
    countChar ',' (joinSep "," parts) + 1 = parts.length := by
  intro parts
  induction parts with
  | nil => intro h; cases h rfl
  | cons x xs ih =>
    intro _ hfree
    cases xs with
    | nil => simp [joinSep, hfree x (by simp)]
    | cons y ys =>
      have hx := hfree x (by simp)
      have hys : ∀ p ∈ y :: ys, countChar ',' p = 0 := fun p hp => hfree p (by simp [hp])
      have hrec := ih (by simp) hys
      show countChar ',' (x ++ "," ++ joinSep "," (y :: ys)) + 1 = (y :: ys).length + 1
      rw [countChar_append, countChar_append, hx]
      have hcomma : countChar ',' "," = 1 := rfl
      omega

/-- A line of `to_csv` on quote-free fields holds one comma less than the
field count. -/
theorem csvLine_comma_count (fields : List String) (hne : fields ≠ [])
    (hfree : ∀ s ∈ fields, needsQuoting s = false) :
    countChar ',' (csvLine fields) + 1 = fields.length := by
  have hmap : fields.map renderField = fields := by
    have := List.map_congr_left (l := fields) (f := renderField) (g := id)
      (fun s hs => renderField_id s (hfree s hs))
    simpa using this
  rw [csvLine, hmap]
  exact joinSep_comma_count fields hne
    (fun p hp => countComma_of_not_needsQuoting p (hfree p hp))

/-- C8: the CSV export emits one header line built from the column labels
(no row-index column) plus one line per row, so a 10-row table yields 11
lines; when the labels and rendered cells are free of special characters,
every line splits on commas into exactly the column count of fields — in
particular 5 commas per line for the concrete 10×6 table. -/
theorem exporter_csv_spec :
    (∀ df : DF, (to_csv df).length = df.rows.length + 1)
    ∧ (∀ df : DF, (to_csv df).head? = some (csvLine df.cols))
    ∧ (∀ df : DF, df.cols ≠ [] →
        (∀ r ∈ df.rows, r.length = df.cols.length) →
        (∀ s ∈ df.cols, needsQuoting s = false) →
        (∀ r ∈ df.rows, ∀ v ∈ r, needsQuoting (valueToStr v) = false) →
        ∀ line ∈ to_csv df, countChar ',' line + 1 = df.cols.length)
    ∧ ((to_csv df10x6).length = 11
        ∧ ∀ line ∈ to_csv df10x6, countChar ',' line = 5) := by
  refine ⟨?_, ?_, ?_, by decide, by decide⟩
  · intro df; simp [to_csv]
  · intro df; simp [to_csv]
  · intro df hcols hlen hfreecols hfreecells line hline
    rw [to_csv] at hline
    rcases List.mem_cons.mp hline with hline | hline
    · subst hline
      exact csvLine_comma_count df.cols hcols hfreecols
    · obtain ⟨r, hr, rfl⟩ := List.mem_map.mp hline
      have hne : r.map valueToStr ≠ [] := by
        have : r ≠ [] := by
          intro hnil
          have hlr := hlen r hr
          rw [hnil] at hlr
          simp only [List.length_nil] at hlr
          exact hcols (List.length_eq_zero.mp hlr.symm)
        simpa using this
      have hfree : ∀ s ∈ r.map valueToStr, needsQuoting s = false := by
        intro s hs
        obtain ⟨v, hv, rfl⟩ := List.mem_map.mp hs
        exact hfreecells r hr v hv
      rw [csvLine_comma_count (r.map valueToStr) hne hfree, List.length_map]
      exact hlen r hr

/-- Witness for C8: the header line of the concrete 10×6 table has 5
commas for its 6 fields. -/
theorem exporter_csv_spec_witness :
    countChar ',' (csvLine df10x6.cols) + 1 = df10x6.cols.length :=
  exporter_csv_spec.2.2.1 df10x6 (by decide) (by decide) (by decide) (by decide)
    (csvLine df10x6.cols) (by decide)

/-- The lexicographic order on character lists is total. -/
theorem lexLe_total : ∀ a b : List Char, lexLe a b = true ∨ lexLe b a = true := by
  intro a
  induction a with
  | nil => intro b; left; rfl
  | cons x xs ih =>
    intro b
    cases b with
    | nil => right; rfl
    | cons y ys =>
      rcases Nat.lt_trichotomy x.toNat y.toNat with h | h | h
      · left; simp [lexLe, h]
      · have h1 : ¬x.toNat < y.toNat := by omega
        have h2 : ¬y.toNat < x.toNat := by omega
        rcases ih ys with hxy | hyx
        · left; simp [lexLe, h1, h2, hxy]
        · right; simp [lexLe, h1, h2, hyx]
      · right; simp [lexLe, h]

/-- The lexicographic order on character lists is transitive. -/
theorem lexLe_trans : ∀ a b c : List Char,
    lexLe a b = true → lexLe b c = true → lexLe a c = true := by
  intro a
  induction a with
  | nil => intro b c _ _; rfl
  | cons x xs ih =>
    intro b c hab hbc
    cases b with
    | nil => simp [lexLe] at hab
    | cons y ys =>
      cases c with
      | nil => simp [lexLe] at hbc
      | cons z zs =>
        by_cases hxy : x.toNat < y.toNat
        · by_cases hyz : y.toNat < z.toNat
          · have : x.toNat < z.toNat := by omega
            simp [lexLe, this]
          · by_cases hzy : z.toNat < y.toNat
            · simp [lexLe, hyz, hzy] at hbc
            · have : x.toNat < z.toNat := by omega
              simp [lexLe, this]
        · by_cases hyx : y.toNat < x.toNat
          · simp [lexLe, hxy, hyx] at hab
          · rw [lexLe, if_neg hxy, if_neg hyx] at hab
            by_cases hyz : y.toNat < z.toNat
            · have : x.toNat < z.toNat := by omega
              simp [lexLe, this]
            · by_cases hzy : z.toNat < y.toNat
              · simp [lexLe, hyz, hzy] at hbc
              · rw [lexLe, if_neg hyz, if_neg hzy] at hbc
                have hxz : ¬x.toNat < z.toNat := by omega
                have hzx : ¬z.toNat < x.toNat := by omega
                rw [lexLe, if_neg hxz, if_neg hzx]
                exact ih ys zs hab hbc

instance periodPairLeTotal : IsTotal (String × Nat) (fun p q => strLe p.1 q.1 = true) :=
  ⟨fun a b => lexLe_total a.1.data b.1.data⟩

instance periodPairLeTrans : IsTrans (String × Nat) (fun p q => strLe p.1 q.1 = true) :=
  ⟨fun a b c => lexLe_trans a.1.data b.1.data c.1.data⟩

/-- Membership in the first-occurrence distinct list. -/
theorem mem_firstOccs {α : Type} [DecidableEq α] :
    ∀ (l seen : List α) (a : α), a ∈ firstOccs seen l ↔ a ∈ l ∧ a ∉ seen := by
  intro l
  induction l with
  | nil => intro seen a; simp [firstOccs]
  | cons x xs ih =>
    intro seen a
    by_cases hx : x ∈ seen
    · rw [firstOccs, if_pos hx, ih]
      constructor
      · rintro ⟨h1, h2⟩
        exact ⟨List.mem_cons_of_mem _ h1, h2⟩
      · rintro ⟨h1, h2⟩
        rcases List.mem_cons.mp h1 with rfl | h1
        · exact absurd hx h2
        · exact ⟨h1, h2⟩
    · rw [firstOccs, if_neg hx]
      constructor
      · intro h
        rcases List.mem_cons.mp h with rfl | h
        · exact ⟨List.mem_cons_self _ _, hx⟩
        · have h' := (ih (x :: seen) a).mp h
          exact ⟨List.mem_cons_of_mem _ h'.1, fun hs => h'.2 (List.mem_cons_of_mem _ hs)⟩
      · rintro ⟨h1, h2⟩
        rcases List.mem_cons.mp h1 with rfl | h1
        · exact List.mem_cons_self _ _
        · by_cases hax : a = x
          · subst hax; exact List.mem_cons_self _ _
          · exact List.mem_cons_of_mem _
              ((ih (x :: seen) a).mpr ⟨h1, by simp [hax, h2]⟩)

/-- On a non-empty table with the two suffixed period columns, the metrics
dictionary's temporal-distribution entry is the sorted value count of the
period labels. -/
theorem dist_eq (df : DF) (h : df.rows ≠ []) (h1 : "Ano_historico" ∈ df.cols)
    (h2 : "Semestre_historico" ∈ df.cols) :
    (calculate_additional_metrics df).1.distribuicao_temporal
      = some (sortIndex (strValueCounts (periodoLabels df))) := by
  simp only [calculate_additional_metrics]
  rw [if_neg (by simp [h]), if_pos ⟨h1, h2⟩]

/-- On a non-empty table with the two suffixed period columns, the table
returned by the Metrics Calculator is the input with the `periodo` column
assigned. -/
theorem metrics_snd_eq (df : DF) (h : df.rows ≠ []) (h1 : "Ano_historico" ∈ df.cols)
    (h2 : "Semestre_historico" ∈ df.cols) :
    (calculate_additional_metrics df).2
      = assignCol df "periodo" ((periodoLabels df).map Value.str) := by
  simp only [calculate_additional_metrics]
  rw [if_neg (by simp [h]), if_pos ⟨h1, h2⟩]

/-- C6: on every non-empty joined table with the suffixed year and term
columns, the temporal distribution pairs each "{year}/{term}" text label
(string concatenation) with its occurrence count among the rows, its label
set is exactly the labels of the rows, and it is sorted lexicographically
ascending — so on the concrete table with terms 2 and 10 of 2019, label
"2019/10" precedes "2019/2". -/
theorem distribuicao_temporal_spec :
    (∀ df : DF, df.rows ≠ [] → "Ano_historico" ∈ df.cols → "Semestre_historico" ∈ df.cols →
      (calculate_additional_metrics df).1.distribuicao_temporal ≠ none
      ∧ List.Pairwise (fun p q => strLe p.1 q.1 = true)
          ((calculate_additional_metrics df).1.distribuicao_temporal.getD [])
      ∧ (∀ p ∈ (calculate_additional_metrics df).1.distribuicao_temporal.getD [],
          p.2 = countOcc (periodoLabels df) p.1)
      ∧ (∀ s : String, s ∈ periodoLabels df ↔
          s ∈ ((calculate_additional_metrics df).1.distribuicao_temporal.getD []).map Prod.fst))
    ∧ (calculate_additional_metrics example75).1.distribuicao_temporal =
        some [("2019/10", 1), ("2019/2", 1), ("2020/1", 1), ("2020/2", 1)] := by
  refine ⟨?_, by decide⟩
  intro df h h1 h2
  rw [dist_eq df h h1 h2]
  refine ⟨by simp, ?_, ?_, ?_⟩
  · rw [Option.getD_some, sortIndex]
    exact List.sorted_insertionSort _ _
  · intro p hp
    rw [Option.getD_some, sortIndex, List.mem_insertionSort, strValueCounts,
      List.mem_insertionSort] at hp
    obtain ⟨s, _, rfl⟩ := List.mem_map.mp hp
    rfl
  · intro s
    constructor
    · intro hsL
      rw [Option.getD_some]
      refine List.mem_map.mpr ⟨(s, countOcc (periodoLabels df) s), ?_, rfl⟩
      rw [sortIndex, List.mem_insertionSort, strValueCounts, List.mem_insertionSort]
      exact List.mem_map.mpr
        ⟨s, (mem_firstOccs (periodoLabels df) [] s).mpr ⟨hsL, by simp⟩, rfl⟩
    · intro hs
      rw [Option.getD_some] at hs
      obtain ⟨p, hp, rfl⟩ := List.mem_map.mp hs
      rw [sortIndex, List.mem_insertionSort, strValueCounts, List.mem_insertionSort] at hp
      obtain ⟨t, ht, rfl⟩ := List.mem_map.mp hp
      exact ((mem_firstOccs (periodoLabels df) [] t).mp ht).1

/-- Witness for C6 at the concrete joined table. -/
theorem distribuicao_temporal_spec_witness :
    (calculate_additional_metrics example75).1.distribuicao_temporal ≠ none
    ∧ List.Pairwise (fun p q => strLe p.1 q.1 = true)
        ((calculate_additional_metrics example75).1.distribuicao_temporal.getD []) :=
  ⟨(distribuicao_temporal_spec.1 example75 (by decide) (by decide) (by decide)).1,
   (distribuicao_temporal_spec.1 example75 (by decide) (by decide) (by decide)).2.1⟩

/-- There is one period label per row. -/
theorem periodoLabels_length (df : DF) : (periodoLabels df).length = df.rows.length := by
  simp [periodoLabels, DF.col]

/-- Appending one cell to every row does not change the cells read at an
index inside the original row. -/
theorem map_getCell_zip (j : Nat) :
    ∀ (rows : List (List Value)) (vals : List Value), vals.length = rows.length →
    (∀ r ∈ rows, j < r.length) →
    (List.zipWith (fun r v => r ++ [v]) rows vals).map (fun r => getCell r (some j))
      = rows.map (fun r => getCell r (some j)) := by
  intro rows
  induction rows with
  | nil => intro vals _ _; simp
  | cons r rs ih =>
    intro vals hlen hj
    cases vals with
    | nil => simp at hlen
    | cons v vs =>
      simp only [List.zipWith_cons_cons, List.map_cons]
      congr 1
      · have hjr := hj r (by simp)
        simp [getCell, List.getElem?_append_left hjr]
      · exact ih vs (by simpa using hlen) (fun t ht => hj t (by simp [ht]))

/-- C9: the Metrics Calculator hands back the caller's table mutated in
place: on a non-empty well-formed table having the suffixed year and term
columns and no `periodo` column yet, the returned table has the original
columns plus a trailing `periodo` column, the same number of rows, each row
extended by its period label only, and every pre-existing column reads back
unchanged. -/
theorem metrics_mutates_in_place :
    ∀ df : DF, df.rows ≠ [] → "Ano_historico" ∈ df.cols → "Semestre_historico" ∈ df.cols →
    "periodo" ∉ df.cols → (∀ r ∈ df.rows, r.length = df.cols.length) →
    (calculate_additional_metrics df).2.cols = df.cols ++ ["periodo"]
    ∧ (calculate_additional_metrics df).2.rows
        = List.zipWith (fun r v => r ++ [v]) df.rows ((periodoLabels df).map Value.str)
    ∧ (calculate_additional_metrics df).2.rows.length = df.rows.length
    ∧ ∀ c ∈ df.cols, (calculate_additional_metrics df).2.col c = df.col c := by
  intro df h h1 h2 hp hwf
  rw [metrics_snd_eq df h h1 h2]
  simp only [assignCol, if_neg hp]
  refine ⟨by trivial, by trivial, ?_, ?_⟩
  · simp [List.length_zipWith, periodoLabels_length]
  · intro c hc
    have hs : (df.cols.findIdx? (fun x => decide (x = c))).isSome := by
      rw [List.findIdx?_isSome]
      exact List.any_eq_true.mpr ⟨c, hc, by simp⟩
    obtain ⟨j, hj⟩ := Option.isSome_iff_exists.mp hs
    have hjlt : j < df.cols.length := (List.findIdx?_eq_some_iff_findIdx_eq.mp hj).1
    have hidx0 : df.colIdx c = some j := hj
    have hidx : DF.colIdx ⟨df.cols ++ ["periodo"],
        List.zipWith (fun r v => r ++ [v]) df.rows ((periodoLabels df).map Value.str)⟩ c
        = some j := by
      simp only [DF.colIdx]
      rw [List.findIdx?_append, hj, Option.or_some]
    rw [DF.col, DF.col, hidx, hidx0]
    exact map_getCell_zip j df.rows ((periodoLabels df).map Value.str)
      (by simp [periodoLabels_length])
      (fun r hr => by rw [hwf r hr]; exact hjlt)

/-- Witness for C9 at the concrete joined table. -/
theorem metrics_mutates_in_place_witness :
    (calculate_additional_metrics example75).2.cols = example75.cols ++ ["periodo"]
    ∧ (calculate_additional_metrics example75).2.rows
        = List.zipWith (fun r v => r ++ [v]) example75.rows
            ((periodoLabels example75).map Value.str)
    ∧ (calculate_additional_metrics example75).2.rows.length = example75.rows.length := by
  have H := metrics_mutates_in_place example75 (by decide) (by decide) (by decide)
    (by decide) (by decide)
  exact ⟨H.1, H.2.1, H.2.2.1⟩

/-- C10: a decision text holding both the positive keyword and a negative
keyword is counted in the approved count and in the rejected count, so on
this joined table approved + rejected (= 2) exceeds the number of rows
whose decision is classified at all (= 1). -/
theorem parecer_double_count :
    countAprovados exampleDupla = 1
    ∧ countNegados exampleDupla = 1
    ∧ ((exampleDupla.col "parecer_historico").filter
        (fun v => isAprovado v || isNegado v)).length = 1
    ∧ countAprovados exampleDupla + countNegados exampleDupla
        > ((exampleDupla.col "parecer_historico").filter
            (fun v => isAprovado v || isNegado v)).length := by
  decide

end AppReq
